import Mathlib

/-!
Shallow embedding of the use-keep store library.

The repository has two implementations of the store factory:

* `src/main.ts` (the package entry point): the unified callable `state`
  distinguishes a get from a set with a default-parameter sentinel,
  `(s = notProvided) => { if (s !== notProvided) set else get }`.
  JavaScript substitutes the default value when the caller passes
  `undefined` explicitly, so an explicit `state(undefined)` takes the
  get branch.
* `src/keep.ts`: `function state(s?)` checks `arguments.length === 1`,
  so an explicit `state(undefined)` takes the set branch.

Values stored in a store are modelled by `Value`, a small JavaScript-like
value universe.  Setter arguments are either a literal value or an updater
function; updaters may throw, modelled with `Except String`.  Listeners
are modelled by numeric identifiers; the `Set` of listeners is a
duplicate-free list, and a notification pass is recorded as the list of
listener identifiers invoked, in iteration order.
-/

namespace UseKeep

/-- JavaScript-like universe of storable (non-function) values. -/
inductive Value where
  | undef : Value
  | null : Value
  | bool : Bool → Value
  | num : Int → Value
  | str : String → Value
deriving DecidableEq, Repr

/-- State owned by one `keep` closure: the mutable `initialState` cell and
the `listeners` set (a duplicate-free list of listener identifiers). -/
structure Store where
  currentValue : Value
  listeners : List Nat
deriving DecidableEq, Repr

/-- Fresh store as built by the factory before any method is attached:
the initial value and an empty listener set. -/
def keepNew (v : Value) : Store :=
  { currentValue := v, listeners := [] }

/-- Argument of a one-argument call: a literal value, or an updater
function from the current value to the new value (which may throw). -/
inductive Arg where
  | lit : Value → Arg
  | fn : (Value → Except String Value) → Arg

/-- Observable outcome of one call on the unified callable: the store
afterwards, the listeners invoked during the call in order, the value
returned (for a get), and the exception propagated, if any. -/
structure CallResult where
  store : Store
  notified : List Nat
  ret : Option Value
  thrown : Option String
deriving Repr

/-- Zero-argument call: both implementations return `initialState`
with no side effect. -/
def stateCall0 (st : Store) : Value :=
  st.currentValue

/-- One-argument call on the `src/main.ts` store.
Source: `(s = notProvided) => { if (s !== notProvided) { initialState =
typeof s === 'function' ? s(initialState) : s; for (const listener of
listeners) listener(); } else return initialState; }`.
Passing `undefined` explicitly makes JavaScript substitute the
`notProvided` default, so `Arg.lit Value.undef` takes the get branch.
If the updater throws, the assignment to `initialState` is never reached
and the notification loop does not run. -/
def stateMainCall1 (st : Store) (a : Arg) : CallResult :=
  match a with
  | .lit v =>
      if v = Value.undef then
        { store := st, notified := [], ret := some st.currentValue, thrown := none }
      else
        { store := { st with currentValue := v }, notified := st.listeners,
          ret := none, thrown := none }
  | .fn f =>
      match f st.currentValue with
      | .ok nv =>
          { store := { st with currentValue := nv }, notified := st.listeners,
            ret := none, thrown := none }
      | .error e =>
          { store := st, notified := [], ret := none, thrown := some e }

/-- One-argument call on the `src/keep.ts` store.
Source: `function state(s?) { if (arguments.length === 1) { initialState =
typeof s === 'function' ? s(initialState) : s; for (const listener of
listeners) listener(); } else return initialState; }`.
The arity check sees the explicit argument, so every literal, including
`undefined`, takes the set branch. -/
def stateKeepCall1 (st : Store) (a : Arg) : CallResult :=
  match a with
  | .lit v =>
      { store := { st with currentValue := v }, notified := st.listeners,
        ret := none, thrown := none }
  | .fn f =>
      match f st.currentValue with
      | .ok nv =>
          { store := { st with currentValue := nv }, notified := st.listeners,
            ret := none, thrown := none }
      | .error e =>
          { store := st, notified := [], ret := none, thrown := some e }

/-- Subscription, identical in both implementations:
`listeners.add(listener)`.  A JavaScript `Set` ignores an element already
present and otherwise appends in insertion order. -/
def subscribe (st : Store) (l : Nat) : Store :=
  if l ∈ st.listeners then st else { st with listeners := st.listeners ++ [l] }

/-- The unsubscribe closure returned by `subscribe`:
`() => listeners.delete(listener)`.  `Set.delete` removes the entry if
present and returns whether it was present; it never throws.  The result
is the store afterwards paired with that boolean. -/
def unsubscribe (st : Store) (l : Nat) : Store × Bool :=
  ({ st with listeners := st.listeners.erase l }, decide (l ∈ st.listeners))

/-- A one-argument call that committed a set: it neither returned a value
(the get branch was not taken) nor propagated an exception. -/
def isSet (r : CallResult) : Prop :=
  r.ret = none ∧ r.thrown = none

/-- The store object as seen by application code: the closure state plus
the attached method names.  `objId` models JavaScript object identity:
operations that return the very same object reference keep `objId`
unchanged, and a factory call allocates a fresh object (a fresh `objId`
is irrelevant inside one factory call, so it is fixed to 0 there). -/
structure ExtStore where
  objId : Nat
  store : Store
  methods : List String
deriving DecidableEq, Repr

/-- Method `assign` of the `src/main.ts` store:
`state.assign = function(this, k) { return Object.assign(this, k) }`.
`Object.assign` copies the named operations of `k` onto `this` and
returns `this` itself, so the object identity is preserved and every
name of `k` is afterwards present on the object. -/
def assign (s : ExtStore) (m : List String) : ExtStore :=
  { s with methods := s.methods ++ m }

/-- Factory `keep` of `src/main.ts`: builds the state closure, attaches
`subscribe`, `use` and `assign`, and, when a methods object is provided
(`if (k) return state.assign(k); return state;`), extends the freshly
built store with it.  A methods object is truthy, so `Option` models
provided-or-not faithfully. -/
def keepMain (v : Value) (k : Option (List String)) : ExtStore :=
  let state : ExtStore := { objId := 0, store := keepNew v, methods := [] }
  match k with
  | some m => assign state m
  | none => state

/-- Factory `keep` of `src/keep.ts`: a one-parameter arrow function.
It builds the state closure and attaches only `subscribe`; no extension
methods exist on the returned object.  In JavaScript any extra argument
passed to it is silently ignored. -/
def keepKeepTs (v : Value) : ExtStore :=
  { objId := 0, store := keepNew v, methods := [] }

/-- Initializer `init` of `src/usePeek.ts`:
`() => { const storeInstance = keep(initial_value, extension);
return [storeInstance(), storeInstance]; }`.
The `keep` in scope is imported from `./keep` and takes one parameter,
so the `extension` argument is discarded by JavaScript arity rules and
is never invoked; the store returned to the component is the bare store. -/
def usePeekInit (v : Value) (extFn : ExtStore → List String) : Value × ExtStore :=
  let storeInstance := keepKeepTs v
  (stateCall0 storeInstance.store, storeInstance)

/-- Instance-scoped cell of `useKeeper` (`src/useKeeper.ts`):
`useRef<T | typeof UNINITIALIZED>(UNINITIALIZED)`.  The marker
`UNINITIALIZED` is a fresh `Symbol`, distinct from every user value
(in particular from `undefined`), which `Option.none` models exactly. -/
def keeperFresh : Option Value :=
  none

/-- One render of a component calling `useKeeper(keeperGen)`:
`if (keeper.current === UNINITIALIZED) keeper.current = keeperGen();
return keeper.current;`.  Returns the value given to the component, the
ref cell afterwards, and how many times the generator was invoked during
this render. -/
def useKeeperRender (keeperGen : Unit → Value) (r : Option Value) :
    Value × Option Value × Nat :=
  match r with
  | none =>
      let v := keeperGen ()
      (v, some v, 1)
  | some v => (v, r, 0)

/-- N successive renders of the same component instance: the list of
values returned to the component, the ref cell afterwards, and the total
number of generator invocations. -/
def useKeeperRenders (keeperGen : Unit → Value) : Nat → Option Value → List Value × Option Value × Nat
  | 0, r => ([], r, 0)
  | n + 1, r =>
      let first := useKeeperRender keeperGen r
      let rest := useKeeperRenders keeperGen n first.2.1
      (first.1 :: rest.1, rest.2.1, first.2.2 + rest.2.2)

/-! Helper lemmas shared by the claim theorems. -/

/-- A successful set on the main-entry store notifies exactly the
registered listeners, in order. -/
theorem notified_main_eq (st : Store) (a : Arg) (h : isSet (stateMainCall1 st a)) :
    (stateMainCall1 st a).notified = st.listeners := by
  cases a with
  | lit v =>
    by_cases hv : v = Value.undef
    · exact absurd h.1 (by simp [stateMainCall1, hv])
    · simp [stateMainCall1, hv]
  | fn f =>
    cases hfx : f st.currentValue with
    | ok nv => simp [stateMainCall1, hfx]
    | error e => exact absurd h.2 (by simp [stateMainCall1, hfx])

/-- Any one-argument call on the main-entry store notifies either every
registered listener (a committed set) or nobody (a get or a throw). -/
theorem notified_main_cases (st : Store) (a : Arg) :
    (stateMainCall1 st a).notified = st.listeners ∨ (stateMainCall1 st a).notified = [] := by
  cases a with
  | lit v =>
    by_cases hv : v = Value.undef
    · right; simp [stateMainCall1, hv]
    · left; simp [stateMainCall1, hv]
  | fn f =>
    cases hfx : f st.currentValue with
    | ok nv => left; simp [stateMainCall1, hfx]
    | error e => right; simp [stateMainCall1, hfx]

/-- Subscribing registers the listener. -/
theorem mem_subscribe (st : Store) (l : Nat) : l ∈ (subscribe st l).listeners := by
  by_cases h : l ∈ st.listeners <;> simp [subscribe, h]

/-- Subscribing an already registered listener changes nothing
(JavaScript `Set.add` on a present element). -/
theorem subscribe_mem_eq (st : Store) (l : Nat) (h : l ∈ st.listeners) :
    subscribe st l = st := by
  simp [subscribe, h]

/-- Subscribing preserves the set invariant of the listener list. -/
theorem subscribe_nodup (st : Store) (l : Nat) (h : st.listeners.Nodup) :
    (subscribe st l).listeners.Nodup := by
  by_cases hm : l ∈ st.listeners
  · simpa [subscribe, hm] using h
  · simp only [subscribe, hm, if_false]
    rw [List.nodup_append]
    exact ⟨h, List.nodup_singleton l, fun x hx hxl => hm ((List.mem_singleton.1 hxl) ▸ hx)⟩

/-- After the generator result has been retained, every further render
returns it unchanged and never calls the generator again. -/
theorem useKeeperRenders_some (keeperGen : Unit → Value) (v : Value) (n : Nat) :
    useKeeperRenders keeperGen n (some v) = (List.replicate n v, some v, 0) := by
  induction n with
  | zero => rfl
  | succ m ih => simp [useKeeperRenders, useKeeperRender, ih, List.replicate_succ]

/-! Claim theorems. -/

/-- C1: the spec requires that calling the store with one explicit
argument drawn from undefined, null, 0, false or the empty string is a
set, never misread as a get.  The main-entry store (`src/main.ts`)
violates this for `undefined`: its default-parameter sentinel replaces
an explicit `undefined` argument with the sentinel, so the call returns
the current value, changes nothing and notifies nobody, exactly like a
zero-argument get.  The other four values, and the arity-checked store
of `src/keep.ts` on every value including `undefined`, behave as the
spec demands. -/
theorem sentinel_misreads_undefined :
    (stateMainCall1 { currentValue := Value.num 5, listeners := [0] } (Arg.lit Value.undef)).ret
      = some (Value.num 5) ∧
    (stateMainCall1 { currentValue := Value.num 5, listeners := [0] } (Arg.lit Value.undef)).store.currentValue
      = Value.num 5 ∧
    (stateMainCall1 { currentValue := Value.num 5, listeners := [0] } (Arg.lit Value.undef)).notified = [] ∧
    (stateKeepCall1 { currentValue := Value.num 5, listeners := [0] } (Arg.lit Value.undef)).store.currentValue
      = Value.undef ∧
    (stateKeepCall1 { currentValue := Value.num 5, listeners := [0] } (Arg.lit Value.undef)).notified = [0] ∧
    (stateMainCall1 { currentValue := Value.num 5, listeners := [0] } (Arg.lit Value.null)).store.currentValue
      = Value.null ∧
    (stateMainCall1 { currentValue := Value.num 5, listeners := [0] } (Arg.lit (Value.num 0))).store.currentValue
      = Value.num 0 ∧
    (stateMainCall1 { currentValue := Value.num 5, listeners := [0] } (Arg.lit (Value.bool false))).store.currentValue
      = Value.bool false ∧
    (stateMainCall1 { currentValue := Value.num 5, listeners := [0] } (Arg.lit (Value.str ""))).store.currentValue
      = Value.str "" :=
  ⟨rfl, rfl, rfl, rfl, rfl, rfl, rfl, rfl, rfl⟩

/-- C2: the spec requires `usePeek(v, ext)` to apply the extension `ext`
to the freshly built store so that the returned store carries the
extension methods.  The initializer of `src/usePeek.ts` calls
`keep(initial_value, extension)`, but the `keep` it imports from
`src/keep.ts` takes a single parameter, so the extension function is
discarded and never applied: the returned pair carries the initial value
(that part matches the spec) but the store has none of the extension
methods. -/
theorem usePeek_extension_lost :
    (usePeekInit (Value.num 0) (fun _ => ["increment"])).1 = Value.num 0 ∧
    (usePeekInit (Value.num 0) (fun _ => ["increment"])).2.methods = [] ∧
    "increment" ∉ (usePeekInit (Value.num 0) (fun _ => ["increment"])).2.methods :=
  ⟨rfl, rfl, by simp [usePeekInit, keepKeepTs]⟩

/-- C3: if the updater throws on the current value, the exception
propagates to the caller of the set, the store still holds its pre-call
value (a later get returns it), and no listener is notified.  This holds
for both the main-entry store and the arity-checked store: the commit of
the new value and the notification loop come after the updater call in
the source, so a throw reaches neither. -/
theorem updater_throw_atomic (st : Store) (f : Value → Except String Value) (e : String)
    (hf : f st.currentValue = Except.error e) :
    (stateMainCall1 st (Arg.fn f)).thrown = some e ∧
    (stateMainCall1 st (Arg.fn f)).store = st ∧
    (stateMainCall1 st (Arg.fn f)).notified = [] ∧
    stateCall0 (stateMainCall1 st (Arg.fn f)).store = st.currentValue ∧
    (stateKeepCall1 st (Arg.fn f)).thrown = some e ∧
    (stateKeepCall1 st (Arg.fn f)).store = st ∧
    (stateKeepCall1 st (Arg.fn f)).notified = [] := by
  simp [stateMainCall1, stateKeepCall1, stateCall0, hf]

/-- C3 witness: a concrete store holding 1 and an updater that always
throws, instantiating the claim theorem. -/
theorem updater_throw_atomic_witness :
    (fun _ : Value => (Except.error "boom" : Except String Value))
      (keepNew (Value.num 1)).currentValue = Except.error "boom" ∧
    (stateMainCall1 (keepNew (Value.num 1)) (Arg.fn fun _ => Except.error "boom")).store
      = keepNew (Value.num 1) ∧
    (stateMainCall1 (keepNew (Value.num 1)) (Arg.fn fun _ => Except.error "boom")).notified = [] :=
  have h := updater_throw_atomic (keepNew (Value.num 1)) (fun _ => Except.error "boom") "boom" rfl
  ⟨rfl, h.2.1, h.2.2.1⟩

/-- C4 counterexample: the claim quantifies over every non-function
value, but on the main-entry store setting to `undefined` is misread as
a get: after `s(undefined)` on a store holding 5, a get still returns 5,
not `undefined` as the claim requires. -/
theorem set_then_get_cex :
    (stateMainCall1 (keepNew (Value.num 5)) (Arg.lit Value.undef)).store.currentValue
      = Value.num 5 ∧ Value.num 5 ≠ Value.undef :=
  ⟨rfl, by decide⟩

/-- C4 (amended): for every non-function value v other than `undefined`,
after `s(v)` a get returns v on the main-entry store; the arity-checked
store of `src/keep.ts` satisfies this for every value including
`undefined`; a functional update with a pure total updater commits the
updater applied to the previous value; and a get on a fresh store
returns the initial value. -/
theorem set_then_get_amended (st : Store) (v w : Value) (f : Value → Value)
    (hv : v ≠ Value.undef) :
    (stateMainCall1 st (Arg.lit v)).store.currentValue = v ∧
    (stateMainCall1 st (Arg.fn fun x => Except.ok (f x))).store.currentValue
      = f st.currentValue ∧
    (stateKeepCall1 st (Arg.lit w)).store.currentValue = w ∧
    stateCall0 (keepNew w) = w := by
  simp [stateMainCall1, stateKeepCall1, stateCall0, keepNew, hv]

/-- C4 witness: sets a concrete store from 1 to 7 through the amended
theorem, and sets the arity-checked store to `undefined`. -/
theorem set_then_get_amended_witness :
    Value.num 7 ≠ Value.undef ∧
    (stateMainCall1 (keepNew (Value.num 1)) (Arg.lit (Value.num 7))).store.currentValue
      = Value.num 7 ∧
    (stateKeepCall1 (keepNew (Value.num 1)) (Arg.lit Value.undef)).store.currentValue
      = Value.undef :=
  have h := set_then_get_amended (keepNew (Value.num 1)) (Value.num 7) Value.undef
    (fun x => x) (by decide)
  ⟨by decide, h.1, h.2.2.1⟩

/-- C5: one successful set call on a store whose listener set holds N
distinct listeners notifies exactly N times, and every registered
listener appears exactly once in the notification pass: none skipped,
none invoked twice.  The pass is part of the call itself (the loop
`for (const listener of listeners) listener()` runs before the call
returns), which the model records as the notification trace of the call
result. -/
theorem notification_exactly_once (st : Store) (a : Arg)
    (hnd : st.listeners.Nodup) (hset : isSet (stateMainCall1 st a)) :
    (stateMainCall1 st a).notified.length = st.listeners.length ∧
    ∀ l ∈ st.listeners, (stateMainCall1 st a).notified.count l = 1 := by
  rw [notified_main_eq st a hset]
  exact ⟨rfl, fun l hl => List.count_eq_one_of_mem hnd hl⟩

/-- C5 witness: three distinct listeners, one set to 7; listener 1 is
notified exactly once. -/
theorem notification_exactly_once_witness :
    ([0, 1, 2] : List Nat).Nodup ∧
    (stateMainCall1 { currentValue := Value.num 0, listeners := [0, 1, 2] }
      (Arg.lit (Value.num 7))).notified.count 1 = 1 :=
  ⟨by decide,
    (notification_exactly_once { currentValue := Value.num 0, listeners := [0, 1, 2] }
      (Arg.lit (Value.num 7)) (by decide) ⟨rfl, rfl⟩).2 1 (by decide)⟩

/-- C6: across N renders of one component instance (N at least 1), the
generator passed to `useKeeper` is invoked exactly once, on the first
render, and every render returns that first result.  The `UNINITIALIZED`
marker is a fresh symbol distinct from every user value, so this holds
also when the generator result is `undefined` (the witness instantiates
exactly that case). -/
theorem useKeeper_lazy_once (keeperGen : Unit → Value) (n : Nat) (hn : 1 ≤ n) :
    useKeeperRenders keeperGen n keeperFresh
      = (List.replicate n (keeperGen ()), some (keeperGen ()), 1) := by
  obtain ⟨m, rfl⟩ : ∃ m, n = m + 1 := ⟨n - 1, (Nat.succ_pred_eq_of_pos hn).symm⟩
  simp [useKeeperRenders, useKeeperRender, keeperFresh, useKeeperRenders_some,
    List.replicate_succ]

/-- C6 witness: three renders with a generator returning `undefined`:
the generator runs once and all three renders return `undefined`. -/
theorem useKeeper_lazy_once_witness :
    1 ≤ 3 ∧
    useKeeperRenders (fun _ => Value.undef) 3 keeperFresh
      = ([Value.undef, Value.undef, Value.undef], some Value.undef, 1) :=
  ⟨by decide, useKeeper_lazy_once (fun _ => Value.undef) 3 (by decide)⟩

/-- C7: after unsubscribing listener l, no later call notifies l, while a
committed set still notifies every other registered listener; calling the
unsubscribe closure a second time leaves the store unchanged, merely
returns false (JavaScript `Set.delete` on an absent element never
throws), and affects no other listener. -/
theorem unsubscribe_correct (st : Store) (l : Nat) (a : Arg)
    (hnd : st.listeners.Nodup) :
    l ∉ (stateMainCall1 (unsubscribe st l).1 a).notified ∧
    (isSet (stateMainCall1 (unsubscribe st l).1 a) →
      ∀ x ∈ st.listeners, x ≠ l → x ∈ (stateMainCall1 (unsubscribe st l).1 a).notified) ∧
    (unsubscribe (unsubscribe st l).1 l).1 = (unsubscribe st l).1 ∧
    (unsubscribe (unsubscribe st l).1 l).2 = false ∧
    ∀ x, x ≠ l →
      ((x ∈ (unsubscribe (unsubscribe st l).1 l).1.listeners) ↔ x ∈ st.listeners) := by
  have hst2 : (unsubscribe st l).1.listeners = st.listeners.erase l := rfl
  have hlnot : l ∉ (unsubscribe st l).1.listeners := by
    rw [hst2]; exact hnd.not_mem_erase
  have herase2 : (st.listeners.erase l).erase l = st.listeners.erase l :=
    List.erase_of_not_mem (hst2 ▸ hlnot)
  refine ⟨?_, ?_, ?_, ?_, ?_⟩
  · rcases notified_main_cases (unsubscribe st l).1 a with h | h
    · rw [h]; exact hlnot
    · rw [h]; simp
  · intro hset x hx hxl
    rw [notified_main_eq _ _ hset, hst2]
    exact (List.mem_erase_of_ne hxl).2 hx
  · show ({ currentValue := st.currentValue, listeners := (st.listeners.erase l).erase l } : Store)
      = { currentValue := st.currentValue, listeners := st.listeners.erase l }
    rw [herase2]
  · exact decide_eq_false hlnot
  · intro x hxl
    show x ∈ (st.listeners.erase l).erase l ↔ x ∈ st.listeners
    rw [herase2]
    exact List.mem_erase_of_ne hxl

/-- C7 witness: listeners 5 and 9, unsubscribe 5, then set to 1: 5 is not
notified while 9 still is, and the second unsubscribe returns false
without touching 9. -/
theorem unsubscribe_correct_witness :
    ({ currentValue := Value.num 0, listeners := [5, 9] } : Store).listeners.Nodup ∧
    5 ∉ (stateMainCall1
      (unsubscribe { currentValue := Value.num 0, listeners := [5, 9] } 5).1
      (Arg.lit (Value.num 1))).notified ∧
    9 ∈ (stateMainCall1
      (unsubscribe { currentValue := Value.num 0, listeners := [5, 9] } 5).1
      (Arg.lit (Value.num 1))).notified ∧
    (unsubscribe (unsubscribe { currentValue := Value.num 0, listeners := [5, 9] } 5).1 5).2
      = false :=
  have h := unsubscribe_correct { currentValue := Value.num 0, listeners := [5, 9] } 5
    (Arg.lit (Value.num 1)) (by decide)
  ⟨by decide, h.1, h.2.1 ⟨rfl, rfl⟩ 9 (by decide) (by decide), h.2.2.2.1⟩

/-- C8: subscribing the same listener twice yields the same store as
subscribing it once (single logical registration, JavaScript `Set`
semantics); a committed set on the doubly subscribed store notifies that
listener exactly once; and the unsubscribe closure removes it. -/
theorem subscribe_idempotent (st : Store) (l : Nat) (a : Arg)
    (hnd : st.listeners.Nodup)
    (hset : isSet (stateMainCall1 (subscribe (subscribe st l) l) a)) :
    subscribe (subscribe st l) l = subscribe st l ∧
    (stateMainCall1 (subscribe (subscribe st l) l) a).notified.count l = 1 ∧
    l ∉ (unsubscribe (subscribe (subscribe st l) l) l).1.listeners := by
  have hid : subscribe (subscribe st l) l = subscribe st l :=
    subscribe_mem_eq (subscribe st l) l (mem_subscribe st l)
  rw [hid] at hset ⊢
  have hnd2 := subscribe_nodup st l hnd
  refine ⟨rfl, ?_, ?_⟩
  · rw [notified_main_eq _ _ hset]
    exact List.count_eq_one_of_mem hnd2 (mem_subscribe st l)
  · exact hnd2.not_mem_erase

/-- C8 witness: double-subscribe listener 4 on a fresh store, set to 2:
the two stores coincide and 4 is notified exactly once. -/
theorem subscribe_idempotent_witness :
    subscribe (subscribe (keepNew (Value.num 0)) 4) 4 = subscribe (keepNew (Value.num 0)) 4 ∧
    (stateMainCall1 (subscribe (subscribe (keepNew (Value.num 0)) 4) 4)
      (Arg.lit (Value.num 2))).notified.count 4 = 1 :=
  have h := subscribe_idempotent (keepNew (Value.num 0)) 4 (Arg.lit (Value.num 2))
    (by decide) ⟨rfl, rfl⟩
  ⟨h.1, h.2.1⟩

/-- C9: the `assign` method returns the very same object (the object
identity `objId` is unchanged) with every supplied method name present
on it, and the two-argument factory `keep(v, m)` equals the one-argument
factory followed by `assign(m)` (the source literally runs
`state.assign(k)` on the freshly built store when k is provided). -/
theorem extension_identity (s : ExtStore) (m : List String) (v : Value) :
    (assign s m).objId = s.objId ∧
    (∀ nm ∈ m, nm ∈ (assign s m).methods) ∧
    keepMain v (some m) = assign (keepMain v none) m :=
  ⟨rfl, fun nm hnm => List.mem_append.2 (Or.inr hnm), rfl⟩

/-- C9 witness: assigning a single method named increment to a fresh
store keeps the object identity and makes the method present. -/
theorem extension_identity_witness :
    (assign (keepMain (Value.num 0) none) ["increment"]).objId
      = (keepMain (Value.num 0) none).objId ∧
    "increment" ∈ (assign (keepMain (Value.num 0) none) ["increment"]).methods :=
  have h := extension_identity (keepMain (Value.num 0) none) ["increment"] (Value.num 0)
  ⟨h.1, h.2.1 "increment" (by decide)⟩

/-- C10 counterexample: the claim quantifies over every one-argument
call whose new value equals the old one, but on the main-entry store
holding `undefined` with listener 0 registered, the call with argument
`undefined` (new value identical to the old) notifies nobody: the
default-parameter sentinel turns it into a get. -/
theorem notify_equal_value_cex :
    ({ currentValue := Value.undef, listeners := [0] } : Store).currentValue = Value.undef ∧
    (stateMainCall1 { currentValue := Value.undef, listeners := [0] }
      (Arg.lit Value.undef)).notified = [] :=
  ⟨rfl, rfl⟩

/-- C10 (amended): the store performs no equality check before
notifying.  On the main-entry store, every literal set with an argument
other than `undefined` — in particular one equal to the current value —
notifies every registered listener, and so does the identity updater,
which leaves the value unchanged; the arity-checked store notifies even
when re-setting the literal current value itself. -/
theorem notify_without_change (st : Store) (v : Value) (hv : v ≠ Value.undef) :
    (stateMainCall1 st (Arg.lit v)).notified = st.listeners ∧
    (stateMainCall1 st (Arg.fn fun x => Except.ok x)).notified = st.listeners ∧
    (stateMainCall1 st (Arg.fn fun x => Except.ok x)).store.currentValue = st.currentValue ∧
    (stateKeepCall1 st (Arg.lit st.currentValue)).notified = st.listeners ∧
    (stateKeepCall1 st (Arg.lit st.currentValue)).store.currentValue = st.currentValue := by
  simp [stateMainCall1, stateKeepCall1, hv]

/-- C10 witness: a store holding 3 with listener 7, set again to 3 (new
value equal to old): listener 7 is notified. -/
theorem notify_without_change_witness :
    Value.num 3 ≠ Value.undef ∧
    (stateMainCall1 { currentValue := Value.num 3, listeners := [7] }
      (Arg.lit (Value.num 3))).notified = [7] :=
  ⟨by decide,
    (notify_without_change { currentValue := Value.num 3, listeners := [7] }
      (Value.num 3) (by decide)).1⟩

end UseKeep
